import Mathlib

/-!
Verification development for the MiniMart marketplace front-end.

The definitions below are a shallow embedding of the JavaScript sources:
`src/js/storeAggregator.js` (catalog fetch / cache / normalize / aggregate),
`src/js/marketplace.js` (permanent-registry reader/writer),
`src/js/minimaAPI.js` (ledger command wrapper) and `src/js/app.js`
(view-model message handling).  JavaScript machine integers are modelled as
`Int` with explicit wrapping to 32 bits, JS strings as `String`, absent
(`undefined`/`null`) fields as `Option`, and JS truthiness of string fields
by `strTruthy` (false exactly for an absent field and the empty string).
External collaborators (the network, the ledger node RPC) are passed in as
explicit environment arguments.
-/

/-- JS truthiness of a possibly-absent string: `undefined`, `null` and `""`
are falsy, every other string is truthy. -/
def strTruthy : Option String → Bool
  | none => false
  | some s => !(s == "")

/-- JS `v || d` for a possibly-absent string `v` and a string default `d`. -/
def jsOrS (v : Option String) (d : String) : String :=
  match v with
  | none => d
  | some s => if s == "" then d else s

/-- JS `a || b` where both operands are possibly-absent strings. -/
def jsOrOpt (a b : Option String) : Option String :=
  if strTruthy a then a else b

/-- JS `x || null` for a possibly-absent string: collapses the falsy empty
string to `null`. -/
def jsOrNull (x : Option String) : Option String :=
  if strTruthy x then x else none

/-- Interpolation of a possibly-absent value into a JS template literal:
`undefined` prints as the string `"undefined"`. -/
def jsTemplate : Option String → String
  | none => "undefined"
  | some s => s

/-- Wrap an integer to a signed 32-bit value, as JS `x & x` (ToInt32) does. -/
def toInt32 (n : Int) : Int :=
  (n + 2 ^ 31) % 2 ^ 32 - 2 ^ 31

/-- One step of the hash loop in `StoreAggregator.generateUid`
(`hash = ((hash << 5) - hash) + char; hash = hash & hash`). -/
def hashStep (h : Int) (c : Nat) : Int :=
  toInt32 (toInt32 (h * 32) - h + c)

/-- The string hash of `StoreAggregator.generateUid`, folded over the
UTF-16 code units (code points coincide for the ASCII data involved). -/
def hashString (s : String) : Int :=
  s.data.foldl (fun h c => hashStep h c.toNat) 0

/-- JS `Math.abs(hash).toString(16).toUpperCase()`. -/
def natToHexUpper (n : Nat) : String :=
  String.mk ((Nat.toDigits 16 n).map Char.toUpper)

/-- Embedding of `StoreAggregator.generateUid(dappName, address)`: hashes
`` `${dappName}_${address}_${Date.now()}` `` -- note that the current time
is part of the hashed string.  `now` is the explicit `Date.now()` value. -/
def generateUid (dappName : String) (address : String) (now : Nat) : String :=
  "0x" ++ natToHexUpper (hashString (dappName ++ "_" ++ address ++ "_" ++ toString now)).natAbs

/-- Embedding of `storeUrl.replace(/\/[^\/]*$/, '')` from `parseStoreData`: drop
everything from the last `/` (inclusive) to the end; a string without `/`
is unchanged (the regex does not match). -/
def baseUrlOf (s : String) : String :=
  if s.data.contains '/' then
    String.mk (((s.data.reverse.dropWhile (fun c => !(c == '/'))).tail).reverse)
  else s

/-- A user profile as consumed by `StoreAggregator` (`profiles` entries). -/
structure Profile where
  username : String
  address : String
  maxima_address : Option String
  store_url : Option String
  verified : Bool
  featured_dapp_uid : Option String
deriving DecidableEq, Repr

/-- One value of the raw catalog document's key→object mapping
(`dapps.json` entry), with absent JS fields as `none`. -/
structure DappData where
  name : Option String
  description : Option String
  version : Option String
  category : Option String
  miniDapp : Option String
  file : Option String
  icon : Option String
  downloads : Option Nat
deriving DecidableEq, Repr

/-- A catalog entry with every field absent. -/
def emptyDappData : DappData :=
  { name := none, description := none, version := none, category := none,
    miniDapp := none, file := none, icon := none, downloads := none }

/-- The normalized listing shape built by `StoreAggregator.parseStoreData`. -/
structure ListingEntry where
  uid : String
  name : String
  description : String
  version : String
  category : String
  file : String
  icon : Option String
  developer : String
  developer_address : String
  maxima_address : Option String
  store_url : String
  store_name : String
  downloads : Nat
  timestamp : Nat
  verified : Bool
  featured : Bool
deriving DecidableEq, Repr

/-- The reserved-key test of `parseStoreData`: keys describing the catalog
itself rather than a dapp. -/
def reservedKey (k : String) : Bool :=
  k == "name" || k == "description" || k == "icon" || k == "version"

/-- The body of the `parseStoreData` loop: one `ListingEntry` built from a
non-reserved `(key, dappData)` pair.  `now` is the `Date.now()` value of
the run (used both inside `generateUid` and for `timestamp`). -/
def parseDappEntry (now : Nat) (storeUrl : String) (profile : Profile)
    (key : String) (d : DappData) : ListingEntry :=
  let baseUrl := baseUrlOf storeUrl
  { uid := generateUid key profile.address now
    name := jsOrS d.name key
    description := jsOrS d.description ("No description provided")
    version := jsOrS d.version ("1.0.0")
    category := jsOrS d.category ("Utility")
    file := baseUrl ++ "/" ++ jsTemplate (jsOrOpt d.miniDapp d.file)
    icon := if strTruthy d.icon then some (baseUrl ++ "/" ++ jsTemplate d.icon) else none
    developer := profile.username
    developer_address := profile.address
    maxima_address := jsOrNull profile.maxima_address
    store_url := storeUrl
    store_name := profile.username ++ "\x27s Store"
    downloads := (d.downloads).getD 0
    timestamp := now
    verified := profile.verified
    featured := profile.featured_dapp_uid == some key }

/-- Embedding of `StoreAggregator.parseStoreData(storeData, storeUrl, profile)`: the raw
document is its ordered key→object mapping; reserved keys are skipped, every
other key yields one entry. -/
def parseStoreData (now : Nat) (storeData : List (String × DappData))
    (storeUrl : String) (profile : Profile) : List ListingEntry :=
  storeData.filterMap (fun kv =>
    if reservedKey kv.1 then none
    else some (parseDappEntry now storeUrl profile kv.1 kv.2))

/-! ## Remote catalog fetcher (`StoreAggregator.fetchStore`, network part) -/

/-- The fixed per-request timeout passed to `AbortSignal.timeout` in
`fetchStore` (milliseconds). -/
def fetchTimeoutMs : Nat := 10000

/-- The cache freshness window of `StoreAggregator` (`this.cacheDuration`),
five minutes in milliseconds. -/
def cacheDuration : Nat := 5 * 60 * 1000

/-- The body of an HTTP response, at the granularity `fetchStore` observes
it: either `response.json()` rejects, or it yields a catalog document. -/
inductive JsonBody where
  | malformed
  | doc (d : List (String × DappData))
deriving DecidableEq, Repr

/-- What the network does with one request: fail outright, or deliver a
response with an HTTP status and a body. -/
inductive HttpResult where
  | netErr
  | resp (status : Nat) (body : JsonBody)
deriving DecidableEq, Repr

/-- The network environment for a single request attempt: how long the
request took and what came back. -/
structure NetBehavior where
  elapsedMs : Nat
  result : HttpResult
deriving DecidableEq, Repr

/-- Outcome of the single fetch attempt inside `fetchStore`'s `try` block. -/
inductive FetchAttemptResult where
  | ok (doc : List (String × DappData))
  | failTimeout
  | failNet
  | failHttp (status : Nat)
  | failMalformed
deriving DecidableEq, Repr

/-- The fetch attempt of `fetchStore` lines 90-110: the abort signal fires
once the request exceeds the fixed timeout; otherwise a network error
rejects; otherwise `!response.ok` (status outside 200-299) throws; otherwise
a body that fails to parse as JSON throws. -/
def attemptFetch (b : NetBehavior) : FetchAttemptResult :=
  if fetchTimeoutMs < b.elapsedMs then .failTimeout
  else
    match b.result with
    | .netErr => .failNet
    | .resp status body =>
      if 200 ≤ status ∧ status ≤ 299 then
        match body with
        | .malformed => .failMalformed
        | .doc d => .ok d
      else .failHttp status

/-- Whether the fetch attempt succeeded. -/
def attemptSucceeds : FetchAttemptResult → Bool
  | .ok _ => true
  | _ => false

/-! ## Catalog cache and `fetchStore` -/

/-- Association-list lookup, modelling `Map.prototype.get`. -/
def lookupA {α : Type} : List (String × α) → String → Option α
  | [], _ => none
  | (k, v) :: rest, key => if k == key then some v else lookupA rest key

/-- Association-list update, modelling `Map.prototype.set`. -/
def insertA {α : Type} : List (String × α) → String → α → List (String × α)
  | [], k, v => [(k, v)]
  | (k2, v2) :: rest, k, v =>
    if k2 == k then (k, v) :: rest else (k2, v2) :: insertA rest k v

/-- The two maps held by a `StoreAggregator` instance: `this.cachedStores`
and `this.lastFetchTime`. -/
structure CacheState where
  cachedStores : List (String × List ListingEntry)
  lastFetchTime : List (String × Nat)
deriving DecidableEq, Repr

/-- What `fetchStore` gives its caller: a fulfilled entry list, or a
rejected promise (the rethrown error). -/
inductive StoreResult where
  | ok (entries : List ListingEntry)
  | thrown
deriving DecidableEq, Repr

/-- Embedding of `StoreAggregator.fetchStore(storeUrl, profile)`.  `now` is `Date.now()`
for this call; `net n` is the network behavior the `n`-th fetch attempt
would observe (the code performs exactly one, attempt `0`).  Returns the
settled result together with the updated cache maps: a fresh-enough cache
record short-circuits the network; a successful fetch parses, caches and
returns; a failed fetch falls back to any cached record (regardless of
freshness, leaving it in place) and only throws when none exists. -/
def fetchStore (st : CacheState) (storeUrl : String) (profile : Profile)
    (now : Nat) (net : Nat → NetBehavior) : StoreResult × CacheState :=
  let freshHit : Option (List ListingEntry) :=
    match lookupA st.lastFetchTime storeUrl with
    | some lastFetch =>
      if now - lastFetch < cacheDuration then lookupA st.cachedStores storeUrl
      else none
    | none => none
  match freshHit with
  | some cached => (.ok cached, st)
  | none =>
    match attemptFetch (net 0) with
    | .ok doc =>
      let dapps := parseStoreData now doc storeUrl profile
      (.ok dapps,
        { cachedStores := insertA st.cachedStores storeUrl dapps,
          lastFetchTime := insertA st.lastFetchTime storeUrl now })
    | _ =>
      match lookupA st.cachedStores storeUrl with
      | some cached => (.ok cached, st)
      | none => (.thrown, st)

/-! ## Aggregation orchestrator (`StoreAggregator.fetchAllStores`) -/

/-- The filter on line 26: profiles whose `store_url` is present and
non-blank (`p.store_url && p.store_url.trim()`). -/
def profilesWithStores (profiles : List Profile) : List Profile :=
  profiles.filter (fun p =>
    match p.store_url with
    | none => false
    | some s => strTruthy (some s) && !(s.trim == ""))

/-- The aggregate outcome of `fetchAllStores`: the returned flattened dapps
array together with the per-run success/failure tally the function computes
for its summary report. -/
structure AggResult where
  allDapps : List ListingEntry
  successCount : Nat
  failCount : Nat
deriving DecidableEq, Repr

/-- Result processing for one settled store promise (lines 46-56): a
fulfilled store appends its dapps, a rejected one only bumps the failure
count.  (A fulfilled `fetchStore` always yields an array, which is truthy.) -/
def aggStep (pipeline : Profile → StoreResult) (acc : AggResult) (p : Profile) : AggResult :=
  match pipeline p with
  | .ok ds =>
    { allDapps := acc.allDapps ++ ds,
      successCount := acc.successCount + 1, failCount := acc.failCount }
  | .thrown =>
    { allDapps := acc.allDapps,
      successCount := acc.successCount, failCount := acc.failCount + 1 }

/-- Embedding of `StoreAggregator.fetchAllStores(profiles)`, with the per-source
fetch+cache+normalize pipeline abstracted as the settled outcome `pipeline p`
of each source's promise (`Promise.allSettled` semantics: one outcome per
source, no cross-source interference). -/
def fetchAllStores (profiles : List Profile) (pipeline : Profile → StoreResult) : AggResult :=
  let withStores := profilesWithStores profiles
  if withStores.isEmpty then { allDapps := [], successCount := 0, failCount := 0 }
  else withStores.foldl (aggStep pipeline) { allDapps := [], successCount := 0, failCount := 0 }

/-- The entries a source contributes to the flattened collection. -/
def pipelineEntries (pipeline : Profile → StoreResult) (p : Profile) : List ListingEntry :=
  match pipeline p with
  | .ok ds => ds
  | .thrown => []

/-- Whether a source's pipeline settled successfully. -/
def pipelineOk (pipeline : Profile → StoreResult) (p : Profile) : Bool :=
  match pipeline p with
  | .ok _ => true
  | .thrown => false

/-- Concatenation of the images of `f`, used to state aggregation results. -/
def concatMap {α β : Type} (f : α → List β) : List α → List β
  | [] => []
  | x :: xs => f x ++ concatMap f xs

/-! ## Permanent registry reader (`BlockchainAPI.queryRegisteredDapps`) -/

/-- The JSON object a coin's port-0 state datum may parse to, restricted to
the fields `queryRegisteredDapps` reads. -/
structure DappJson where
  type : String
  dapp_uid : String
  name : String
  version : String
  description : String
  category : String
  icon : Option String
  ipfs_hash : Option String
  developer_address : String
  timestamp : Nat
deriving DecidableEq, Repr

/-- The data string of a state slot, at the granularity the scan observes
it: `JSON.parse` either throws or yields an object. -/
inductive RegData where
  | invalid
  | parsed (j : DappJson)
deriving DecidableEq, Repr

/-- One element of a coin's `state` array.  `data := none` models an absent
(or otherwise falsy) `data` field, which the guard on line 462 skips. -/
structure StateEntry where
  port : String
  data : Option RegData
deriving DecidableEq, Repr

/-- One ledger coin as returned by `coins relevant:false`.  `state := none`
models a missing or non-array `state` field. -/
structure Coin where
  coinid : Option String
  txpowid : Option String
  state : Option (List StateEntry)
deriving DecidableEq, Repr

/-- One entry of the array `queryRegisteredDapps` returns. -/
structure RegistryEntry where
  uid : String
  name : String
  version : String
  description : String
  category : String
  icon : Option String
  ipfs_hash : Option String
  developer_address : String
  timestamp : Nat
  downloads : Nat
  tips : Nat
  txId : Option String
deriving DecidableEq, Repr

/-- The per-coin body of the scan loop (lines 458-487): require an array
`state`, find the port-`"0"` slot, require a truthy `data`, parse it
(invalid JSON is caught and skipped), and keep it only when tagged
`minidev_dapp_registration`. -/
def decodeCoin (c : Coin) : Option RegistryEntry :=
  match c.state with
  | none => none
  | some slots =>
    match slots.find? (fun s => s.port == "0") with
    | none => none
    | some slot =>
      match slot.data with
      | none => none
      | some .invalid => none
      | some (.parsed j) =>
        if j.type == "minidev_dapp_registration" then
          some { uid := j.dapp_uid, name := j.name, version := j.version,
                 description := j.description, category := j.category,
                 icon := jsOrNull j.icon, ipfs_hash := j.ipfs_hash,
                 developer_address := j.developer_address,
                 timestamp := j.timestamp, downloads := 0, tips := 0,
                 txId := jsOrOpt c.coinid c.txpowid }
        else none

/-- The scan loop of `queryRegisteredDapps`: push each decodable coin, and
break once `dapps.length >= limit` -- checked only after the push, at the
end of each iteration. -/
def scanCoins (limit : Int) : List Coin → List RegistryEntry → List RegistryEntry
  | [], acc => acc
  | c :: rest, acc =>
    let acc2 := match decodeCoin c with
      | some e => acc ++ [e]
      | none => acc
    if limit ≤ (acc2.length : Int) then acc2 else scanCoins limit rest acc2

/-- The `coins relevant:false` RPC, as observed by the scan: the command
either throws, or resolves with an object whose `response` (and, inside it,
`coins`) may be absent. -/
structure CoinsResponse where
  coins : Option (List Coin)
deriving DecidableEq, Repr

inductive CmdResult where
  | err (msg : String)
  | ok (response : Option CoinsResponse)
deriving DecidableEq, Repr

/-- Embedding of `BlockchainAPI.queryRegisteredDapps(limit)`: a not-ready API or a
throwing RPC is caught and yields `[]`; a missing `response` or `coins`
yields `[]`; otherwise the coins are scanned up to `limit`. -/
def queryRegisteredDapps (isReady : Bool) (coinsCmd : CmdResult) (limit : Int) :
    List RegistryEntry :=
  if isReady = false then []
  else
    match coinsCmd with
    | .err _ => []
    | .ok none => []
    | .ok (some resp) =>
      match resp.coins with
      | none => []
      | some coins => scanCoins limit coins []

/-- Embedding of `queryRegisteredDapps()` with the `limit` argument omitted: the default
parameter is `100`. -/
def queryRegisteredDappsDefault (isReady : Bool) (coinsCmd : CmdResult) :
    List RegistryEntry :=
  queryRegisteredDapps isReady coinsCmd 100

/-! ## Permanent registry writer (`BlockchainAPI.registerDapp` /
`MinimaAPI.sendCustomTransaction`) -/

/-- The fixed treasury address hard-coded in `registerDapp`. -/
def treasuryAddress : String :=
  "MxG086AUGQMWM6S47P6GWR2U1AV3391EPR5Q53N7DN9MGNMMN6BMH270SV8QRSC"

/-- The dapp metadata `registerDapp` receives from the publish flow. -/
structure DappDraft where
  uid : String
  name : String
  version : String
  description : String
  category : String
  ipfs_hash : Option String
deriving DecidableEq, Repr

/-- The `state` object embedded in the registration transaction. -/
structure RegistrationState where
  type : String
  dapp_uid : String
  name : String
  version : String
  description : String
  category : String
  ipfs_hash : Option String
  developer_address : String
  timestamp : Nat
  registration_fee : String
deriving DecidableEq, Repr

/-- The `transactionData` argument of `sendCustomTransaction`. -/
structure TransactionData where
  amount : Option String
  address : Option String
  state : Option RegistrationState
deriving DecidableEq, Repr

/-- JSON string escaping as performed by `JSON.stringify` on one character. -/
def jsonEscapeChar (c : Char) : String :=
  if c == '"' then "\\\""
  else if c == '\\' then ("\\\\")
  else if c == '\n' then ("\\n")
  else if c == '\r' then ("\\r")
  else if c == '\t' then ("\\t")
  else if c.toNat < 32 then ("\\u00") ++ natToHexUpper c.toNat
  else String.mk [c]

def jsonEscape (s : String) : String :=
  s.data.foldl (fun acc c => acc ++ jsonEscapeChar c) ""

/-- A JSON string literal. -/
def jsonStr (s : String) : String :=
  "\"" ++ jsonEscape s ++ "\""

/-- Embedding of `JSON.stringify(transactionData.state)`: object-literal key order, with
an `undefined` `ipfs_hash` omitted. -/
def stringifyRegistrationState (st : RegistrationState) : String :=
  "\x7b" ++ "\"type\":" ++ jsonStr st.type
  ++ ",\"dapp_uid\":" ++ jsonStr st.dapp_uid
  ++ ",\"name\":" ++ jsonStr st.name
  ++ ",\"version\":" ++ jsonStr st.version
  ++ ",\"description\":" ++ jsonStr st.description
  ++ ",\"category\":" ++ jsonStr st.category
  ++ (match st.ipfs_hash with
      | some h => ",\"ipfs_hash\":" ++ jsonStr h
      | none => "")
  ++ ",\"developer_address\":" ++ jsonStr st.developer_address
  ++ ",\"timestamp\":" ++ toString st.timestamp
  ++ ",\"registration_fee\":" ++ jsonStr st.registration_fee
  ++ "\x7d"

/-- The command string built by `sendCustomTransaction` (lines 247-264),
including the `{"0": JSON.stringify(state)}` wrapping of the state. -/
def buildSendCommand (t : TransactionData) : String :=
  "send "
  ++ (match t.amount with
      | some a => "amount:" ++ a ++ " "
      | none => "")
  ++ (match t.address with
      | some ad => "address:" ++ ad ++ " "
      | none => "")
  ++ (match t.state with
      | some st =>
        " state:" ++ "\x7b\"0\":" ++ jsonStr (stringifyRegistrationState st) ++ "\x7d"
      | none => "")

/-- What `_mdsCommand` yields for one command: a rejection with the node's
error, or a resolved response carrying an optional `txpowid`. -/
inductive RpcResult where
  | err (msg : String)
  | ok (txpowid : Option String)
deriving DecidableEq, Repr

/-- Embedding of `MinimaAPI.sendCustomTransaction(transactionData)`: issues the built
command once (attempt `0` of the environment `rpc`), returns the `txpowid`,
and wraps every failure -- including a response with no `txpowid` -- in a
`Transaction failed: ...` error. -/
def sendCustomTransaction (rpc : Nat → String → RpcResult) (t : TransactionData) :
    Except String String :=
  match rpc 0 (buildSendCommand t) with
  | .ok (some txid) => .ok txid
  | .ok none => .error ("Transaction failed: " ++ "Transaction failed - no txpowid returned")
  | .err m => .error ("Transaction failed: " ++ m)

/-- The `state` object of the registration transaction (lines 409-420). -/
def registrationStateOf (dapp : DappDraft) (developerAddress : String) (now : Nat) :
    RegistrationState :=
  { type := "minidev_dapp_registration", dapp_uid := dapp.uid, name := dapp.name,
    version := dapp.version, description := dapp.description,
    category := dapp.category, ipfs_hash := dapp.ipfs_hash,
    developer_address := developerAddress, timestamp := now,
    registration_fee := "0.01" }

/-- The `transactionData` object of `registerDapp` (lines 406-421): the
fixed `0.01` fee, the fixed treasury address, and the entry metadata. -/
def registrationTxData (dapp : DappDraft) (developerAddress : String) (now : Nat) :
    TransactionData :=
  { amount := some ("0.01"), address := some treasuryAddress,
    state := some (registrationStateOf dapp developerAddress now) }

/-- Embedding of `BlockchainAPI.registerDapp(dapp, developerAddress)`: throws when the
API is not ready, otherwise submits the registration transaction once and
rethrows any failure unchanged (no retry). -/
def registerDapp (isReady : Bool) (rpc : Nat → String → RpcResult)
    (dapp : DappDraft) (developerAddress : String) (now : Nat) :
    Except String String :=
  if isReady = false then .error ("Blockchain API not ready")
  else sendCustomTransaction rpc (registrationTxData dapp developerAddress now)

/-- The registration fee as a rational (`0.01` MINIMA). -/
def registrationFeeAmount : ℚ := 1 / 100

/-- Modelled from the spec: the external ledger node's handling of the
registration `send` command is not part of this repository (`src/` only
contains the client); spec section 4.5 states that the write "fails if the
submitting account's available balance is less than the required fee".
`specNodeRpc balance txid` is the node with that contract, answering the
fixed-fee registration send. -/
def specNodeRpc (balance : ℚ) (txid : String) : Nat → String → RpcResult :=
  fun _ _ =>
    if balance < registrationFeeAmount then .err ("Insufficient funds")
    else .ok (some txid)

/-! ## Listing view model and live-channel events (`MiniMartApp`) -/

/-- One entry of the app's `this.dapps` array, restricted to the fields the
event handlers read and write. -/
structure VMDapp where
  uid : String
  developer_address : String
  downloads : Nat
  tips : ℚ
deriving DecidableEq, Repr

/-- The in-memory view model: the `this.dapps` array. -/
structure AppState where
  dapps : List VMDapp
deriving DecidableEq, Repr

/-- The payload of a `minidev_download` broadcast (`maximaAPI.broadcastDownload`). -/
structure DownloadPayload where
  dapp_uid : String
  downloader_address : String
deriving DecidableEq, Repr

/-- The payload of a `minidev_tip` broadcast (`maximaAPI.broadcastTip`). -/
structure TipPayload where
  amount : ℚ
  recipient_address : String
  sender_address : String
deriving DecidableEq, Repr

/-- A decoded inbound Maxima message: the `type` discriminator plus the
payload fields the various broadcasts carry. -/
structure MaximaMessage where
  type : String
  dapp : Option VMDapp
  download : Option DownloadPayload
  tip : Option TipPayload
deriving DecidableEq, Repr

/-- Embedding of `MiniMartApp.handleNewDapp(dapp)`: unshift the dapp onto `this.dapps`. -/
def handleNewDapp (st : AppState) (d : Option VMDapp) : AppState :=
  match d with
  | some dapp => { dapps := dapp :: st.dapps }
  | none => st

/-- Embedding of `MiniMartApp.handleMaximaMessage(message)` (app.js lines 110-123): the
switch dispatches only `minidev_new_dapp` and `minidev_profile_update`
(whose handler `handleProfileUpdate` does not touch `this.dapps`); every
other `type` -- including `minidev_download` and `minidev_tip` -- hits the
default case, which only logs. -/
def handleMaximaMessage (st : AppState) (m : MaximaMessage) : AppState :=
  if m.type == "minidev_new_dapp" then handleNewDapp st m.dapp
  else if m.type == "minidev_profile_update" then st
  else st

/-- In-place mutation of the first list element satisfying `p`, as JS
`array.find(p)` followed by assignment to the found object does. -/
def updateFirst {α : Type} (p : α → Bool) (f : α → α) : List α → List α
  | [] => []
  | x :: xs => if p x then f x :: xs else x :: updateFirst p f xs

/-- The local counter update of `MiniMartApp.downloadDapp` on a successful
install (app.js lines 256, 302-303): the first dapp with the given uid gets
`downloads = (downloads || 0) + 1`. -/
def applyDownloadSuccess (st : AppState) (dappUid : String) : AppState :=
  { dapps := updateFirst (fun d => d.uid == dappUid)
      (fun d => { d with downloads := d.downloads + 1 }) st.dapps }

/-- The local counter update of `MiniMartApp.sendTip` (app.js lines
1193-1196): the first dapp of the tipped developer gets
`tips = (tips || 0) + amount`. -/
def applySendTip (st : AppState) (developerAddress : String) (amount : ℚ) : AppState :=
  { dapps := updateFirst (fun d => d.developer_address == developerAddress)
      (fun d => { d with tips := d.tips + amount }) st.dapps }

/-! ## Helper lemmas -/

theorem mem_concatMap {α β : Type} {f : α → List β} :
    ∀ {l : List α} {b : β}, b ∈ concatMap f l ↔ ∃ a ∈ l, b ∈ f a := by
  intro l
  induction l with
  | nil => simp [concatMap]
  | cons x xs ih => intro b; simp [concatMap, ih]

theorem foldl_aggStep (pipeline : Profile → StoreResult) :
    ∀ (l : List Profile) (acc : AggResult),
      l.foldl (aggStep pipeline) acc
        = { allDapps := acc.allDapps ++ concatMap (pipelineEntries pipeline) l,
            successCount := acc.successCount + (l.filter (pipelineOk pipeline)).length,
            failCount :=
              acc.failCount + (l.filter (fun p => !(pipelineOk pipeline p))).length } := by
  intro l
  induction l with
  | nil => intro acc; simp [concatMap]
  | cons x xs ih =>
    intro acc
    simp only [List.foldl_cons]
    rw [ih]
    cases hx : pipeline x <;>
      simp [aggStep, hx, pipelineEntries, pipelineOk, concatMap, List.filter_cons,
        List.append_assoc, AggResult.mk.injEq] <;>
      omega

theorem fetchAllStores_eq (ps : List Profile) (pipeline : Profile → StoreResult) :
    fetchAllStores ps pipeline
      = { allDapps := concatMap (pipelineEntries pipeline) (profilesWithStores ps),
          successCount := ((profilesWithStores ps).filter (pipelineOk pipeline)).length,
          failCount :=
            ((profilesWithStores ps).filter (fun p => !(pipelineOk pipeline p))).length } := by
  unfold fetchAllStores
  by_cases h : (profilesWithStores ps).isEmpty
  · have h2 : profilesWithStores ps = [] := by simpa [List.isEmpty_iff] using h
    simp [h, h2, concatMap]
  · simp [h, foldl_aggStep]

theorem concatMap_filter_ok (pipeline : Profile → StoreResult) :
    ∀ l : List Profile,
      concatMap (pipelineEntries pipeline) (l.filter (pipelineOk pipeline))
        = concatMap (pipelineEntries pipeline) l := by
  intro l
  induction l with
  | nil => rfl
  | cons x xs ih =>
    cases hx : pipeline x <;>
      simp [List.filter_cons, pipelineOk, pipelineEntries, hx, concatMap, ih]

theorem updateFirst_of_find {α : Type} (p : α → Bool) (f : α → α) :
    ∀ (l : List α) (d : α), l.find? p = some d →
      ∃ pre post, l = pre ++ d :: post ∧ updateFirst p f l = pre ++ f d :: post := by
  intro l
  induction l with
  | nil => intro d h; simp [List.find?] at h
  | cons x xs ih =>
    intro d h
    by_cases hp : p x
    · rw [List.find?_cons_of_pos _ hp] at h
      obtain rfl : x = d := by injection h
      exact ⟨[], xs, by simp [updateFirst, hp]⟩
    · rw [List.find?_cons_of_neg _ hp] at h
      obtain ⟨pre, post, hl, hu⟩ := ih d h
      exact ⟨x :: pre, post, by simp [hl], by simp [updateFirst, hp, hu]⟩

theorem scanCoins_eq (limit : Int) :
    ∀ (coins : List Coin) (acc : List RegistryEntry),
      ((acc.length : Int) < limit) →
      scanCoins limit coins acc
        = acc ++ (coins.filterMap decodeCoin).take (limit - acc.length).toNat := by
  intro coins
  induction coins with
  | nil => intro acc h; simp [scanCoins]
  | cons c rest ih =>
    intro acc h
    simp only [scanCoins]
    cases hd : decodeCoin c with
    | none =>
      have hlt : ¬ (limit ≤ (acc.length : Int)) := by omega
      simp only [hd, if_neg hlt]
      rw [ih acc h]
      simp [List.filterMap_cons, hd]
    | some e =>
      simp only [hd]
      by_cases hbr : limit ≤ ((acc ++ [e]).length : Int)
      · rw [if_pos hbr]
        have h1 : (limit - acc.length).toNat = 1 := by
          simp only [List.length_append, List.length_cons, List.length_nil] at hbr
          omega
        simp [List.filterMap_cons, hd, h1]
      · rw [if_neg hbr]
        have h2 : (((acc ++ [e]).length : Int)) < limit := by omega
        rw [ih _ h2]
        have h3 : (limit - acc.length).toNat = (limit - ((acc ++ [e]).length : Int)).toNat + 1 := by
          simp only [List.length_append, List.length_cons, List.length_nil]
          push_cast
          omega
        simp [List.filterMap_cons, hd, h3, List.take_succ_cons, List.append_assoc]

theorem scanCoins_length_le (limit : Int) :
    ∀ (coins : List Coin) (acc : List RegistryEntry),
      (scanCoins limit coins acc).length ≤ max (acc.length + 1) limit.toNat := by
  intro coins
  induction coins with
  | nil => intro acc; simp [scanCoins]
  | cons c rest ih =>
    intro acc
    simp only [scanCoins]
    cases hd : decodeCoin c with
    | none =>
      simp only [hd]
      by_cases hbr : limit ≤ ((acc.length : Int))
      · rw [if_pos hbr]; omega
      · rw [if_neg hbr]
        have := ih acc
        omega
    | some e =>
      simp only [hd]
      by_cases hbr : limit ≤ ((acc ++ [e]).length : Int)
      · rw [if_pos hbr]
        simp only [List.length_append, List.length_cons, List.length_nil] at hbr ⊢
        omega
      · rw [if_neg hbr]
        have := ih (acc ++ [e])
        simp only [List.length_append, List.length_cons, List.length_nil] at hbr this ⊢
        omega

/-! ## Claims about the catalog normalizer (C1, C8, C9) -/

/-- The fields of a `ListingEntry` other than `uid` and `timestamp`. -/
structure ListingStatic where
  name : String
  description : String
  version : String
  category : String
  file : String
  icon : Option String
  developer : String
  developer_address : String
  maxima_address : Option String
  store_url : String
  store_name : String
  downloads : Nat
  verified : Bool
  featured : Bool
deriving DecidableEq, Repr

/-- Projection of a `ListingEntry` onto its time-independent fields. -/
def staticPart (e : ListingEntry) : ListingStatic :=
  { name := e.name, description := e.description, version := e.version,
    category := e.category, file := e.file, icon := e.icon,
    developer := e.developer, developer_address := e.developer_address,
    maxima_address := e.maxima_address, store_url := e.store_url,
    store_name := e.store_name, downloads := e.downloads,
    verified := e.verified, featured := e.featured }

/-- A concrete publisher profile used in concrete evaluations. -/
def c1profile : Profile :=
  { username := "alice", address := "MxA", maxima_address := none,
    store_url := some ("http://host/store/dapps.json"), verified := false,
    featured_dapp_uid := none }

/-- A one-entry raw catalog document used in concrete evaluations. -/
def c1doc : List (String × DappData) := [("app", emptyDappData)]

set_option maxRecDepth 10000 in
/-- C1 counterexample: normalizing the same document, catalog URL and
publisher at `Date.now() = 0` and again at `Date.now() = 1` yields entries
with different `uid`s, because `generateUid` hashes the current time along
with the map key and the address.  So the two collections differ in more
than the fetch timestamp, and the id is not stable across repeated fetches. -/
theorem normalization_uid_changes_with_time :
    (parseStoreData 0 c1doc ("http://host/store/dapps.json") c1profile).map
        (fun e => e.uid)
      ≠ (parseStoreData 1 c1doc ("http://host/store/dapps.json") c1profile).map
        (fun e => e.uid) := by
  decide

/-- C1 (amended): normalizing the same raw catalog document with the same
catalog URL and publisher twice in the same run yields collections equal in
all fields except the fetch timestamp and the entry id; the id is derived
deterministically from the map key, the publisher's address and the
normalization time, so it is stable only between normalizations observing
the same `Date.now()` value. -/
theorem normalization_idempotent_except_uid_and_timestamp
    (doc : List (String × DappData)) (url : String) (prof : Profile)
    (n1 n2 : Nat) :
    (parseStoreData n1 doc url prof).map staticPart
      = (parseStoreData n2 doc url prof).map staticPart := by
  induction doc with
  | nil => rfl
  | cons kv rest ih =>
    simp only [parseStoreData, List.filterMap_cons] at ih ⊢
    by_cases h : reservedKey kv.1
    · simpa [h] using ih
    · simp only [h, if_neg, Bool.false_eq_true, not_false_eq_true, List.map_cons]
      exact List.cons_eq_cons.mpr ⟨rfl, ih⟩

/-- The publisher profile of the P4 scenario. -/
def p4profile : Profile :=
  { username := "bob", address := "MxB", maxima_address := none,
    store_url := some ("http://host/store/dapps.json"), verified := false,
    featured_dapp_uid := none }

/-- The P4 catalog document: one dapp entry declaring
`miniDapp: "game.mds.zip"` (and an icon, to check the same rule for it). -/
def p4doc : List (String × DappData) :=
  [("game", { emptyDappData with miniDapp := some ("game.mds.zip"), icon := some ("icon.png") })]

set_option maxRecDepth 10000 in
/-- C8: for `catalogUrl = "http://host/store/dapps.json"` and an entry
declaring `miniDapp: "game.mds.zip"`, the resolved package URL is exactly
`"http://host/store/game.mds.zip"`, and the declared icon filename resolves
against the same directory. -/
theorem package_url_resolved_against_catalog_directory :
    (parseStoreData 0 p4doc ("http://host/store/dapps.json") p4profile).map
        (fun e => e.file)
      = ["http://host/store/game.mds.zip"]
  ∧ (parseStoreData 0 p4doc ("http://host/store/dapps.json") p4profile).map
        (fun e => e.icon)
      = [some ("http://host/store/icon.png")] := by
  constructor <;> decide

/-- C9: normalization is per-key (distributes over the document), each of
the reserved keys `name`, `description`, `icon`, `version` yields no
listing entry, and a non-reserved entry with absent `name`, `version` and
`category` gets the defaults: the map key, `"1.0.0"` and `"Utility"`. -/
theorem normalization_default_substitution (now : Nat) (url : String) (prof : Profile) :
    (∀ d1 d2, parseStoreData now (d1 ++ d2) url prof
        = parseStoreData now d1 url prof ++ parseStoreData now d2 url prof)
  ∧ (∀ k (d : DappData), k ∈ ["name", "description", "icon", "version"] →
        parseStoreData now [(k, d)] url prof = [])
  ∧ (∀ k (d : DappData), reservedKey k = false → d.name = none →
        d.version = none → d.category = none →
        ∃ e, parseStoreData now [(k, d)] url prof = [e]
          ∧ e.name = k ∧ e.version = "1.0.0" ∧ e.category = "Utility") := by
  refine ⟨fun d1 d2 => ?_, fun k d hk => ?_, fun k d hk hn hv hc => ?_⟩
  · simp [parseStoreData, List.filterMap_append]
  · have hr : reservedKey k = true := by
      simp only [List.mem_cons, List.mem_singleton] at hk
      rcases hk with rfl | rfl | rfl | rfl | h <;> first | rfl | simp at h
    simp [parseStoreData, hr]
  · refine ⟨parseDappEntry now url prof k d, ?_, ?_, ?_, ?_⟩
    · simp [parseStoreData, hk]
    · simp [parseDappEntry, jsOrS, hn]
    · simp [parseDappEntry, jsOrS, hv]
    · simp [parseDappEntry, jsOrS, hc]

/-- Witness for C9 at concrete inputs: the reserved key `"icon"` yields no
entry, and a fully-default entry under the key `"app"` gets the default
name, version and category. -/
theorem normalization_default_substitution_witness :
    parseStoreData 0 [("icon", emptyDappData)] "http://h/d.json" c1profile = []
  ∧ ∃ e, parseStoreData 0 [("app", emptyDappData)] "http://h/d.json" c1profile = [e]
      ∧ e.name = "app" ∧ e.version = "1.0.0" ∧ e.category = "Utility" :=
  ⟨(normalization_default_substitution 0 "http://h/d.json" c1profile).2.1
      "icon" emptyDappData (by decide),
   (normalization_default_substitution 0 "http://h/d.json" c1profile).2.2
      "app" emptyDappData (by decide) rfl rfl rfl⟩

/-! ## Claims about the aggregation orchestrator and fetcher (C2, C4, C7) -/

/-- C2: for any list of peer profiles and any per-source settled outcomes,
`fetchAllStores` returns exactly the concatenated entries of the successful
declared sources, its failure count equals the number of failing declared
sources, and its success count the number of successful ones; it is a total
function, so no per-source failure reaches the caller as an error. -/
theorem aggregate_failure_isolation
    (ps : List Profile) (pipeline : Profile → StoreResult) :
    (fetchAllStores ps pipeline).allDapps
      = concatMap (pipelineEntries pipeline)
          ((profilesWithStores ps).filter (pipelineOk pipeline))
  ∧ (fetchAllStores ps pipeline).failCount
      = ((profilesWithStores ps).filter (fun p => !(pipelineOk pipeline p))).length
  ∧ (fetchAllStores ps pipeline).successCount
      = ((profilesWithStores ps).filter (pipelineOk pipeline)).length := by
  rw [fetchAllStores_eq]
  exact ⟨(concatMap_filter_ok pipeline (profilesWithStores ps)).symm, rfl, rfl⟩

/-- C4: if a source's cache holds entries from a prior successful fetch and
the current fetch attempt fails, `fetchStore` resolves with exactly the
cached entries and leaves the cache maps untouched (the record is retained,
not deleted); consequently any aggregation whose pipeline settles that way
for a declared source includes every cached entry in its result. -/
theorem fetchStore_stale_cache_fallback
    (st : CacheState) (url : String) (prof : Profile) (now : Nat)
    (net : Nat → NetBehavior) (cached : List ListingEntry)
    (hc : lookupA st.cachedStores url = some cached)
    (hf : attemptSucceeds (attemptFetch (net 0)) = false) :
    fetchStore st url prof now net = (StoreResult.ok cached, st)
  ∧ ∀ (ps : List Profile) (pipeline : Profile → StoreResult) (p : Profile),
      p ∈ profilesWithStores ps → pipeline p = StoreResult.ok cached →
      ∀ e ∈ cached, e ∈ (fetchAllStores ps pipeline).allDapps := by
  constructor
  · unfold fetchStore
    cases hl : lookupA st.lastFetchTime url with
    | none =>
      simp only [hl]
      cases ha : attemptFetch (net 0) with
      | ok doc => rw [ha] at hf; simp [attemptSucceeds] at hf
      | failTimeout => simp [hc]
      | failNet => simp [hc]
      | failHttp status => simp [hc]
      | failMalformed => simp [hc]
    | some t =>
      simp only [hl]
      by_cases hfr : now - t < cacheDuration
      · simp [hfr, hc]
      · simp only [hfr, if_neg, ite_false]
        cases ha : attemptFetch (net 0) with
        | ok doc => rw [ha] at hf; simp [attemptSucceeds] at hf
        | failTimeout => simp [hc]
        | failNet => simp [hc]
        | failHttp status => simp [hc]
        | failMalformed => simp [hc]
  · intro ps pipeline p hp hpipe e he
    rw [fetchAllStores_eq]
    exact mem_concatMap.mpr ⟨p, hp, by simp [pipelineEntries, hpipe, he]⟩

/-- A concrete profile for the C4 witness. -/
def w4prof : Profile :=
  { username := "carol", address := "MxC", maxima_address := none,
    store_url := some ("http://h/d.json"), verified := false,
    featured_dapp_uid := none }

/-- The entries a prior successful fetch of the C4 witness store produced. -/
def w4entries : List ListingEntry :=
  parseStoreData 0 [("app", emptyDappData)] "http://h/d.json" w4prof

/-- A cache state holding the C4 witness entries, with an expired (absent)
last-fetch time. -/
def w4cache : CacheState :=
  { cachedStores := [("http://h/d.json", w4entries)], lastFetchTime := [] }

/-- Witness for C4: with a cached record present and a network that fails
outright, `fetchStore` returns the cached entries and the unchanged cache. -/
theorem fetchStore_stale_cache_fallback_witness :
    fetchStore w4cache ("http://h/d.json") w4prof 600001 (fun _ => { elapsedMs := 0, result := HttpResult.netErr })
      = (StoreResult.ok w4entries, w4cache) :=
  (fetchStore_stale_cache_fallback w4cache ("http://h/d.json") w4prof 600001
    (fun _ => { elapsedMs := 0, result := HttpResult.netErr }) w4entries rfl rfl).1

/-- C7: the fetch layer's timeout is the fixed 10000 ms; a request exceeding
it fails with a timeout; a response with a non-2xx status fails with an HTTP
status error; a 2xx response whose body does not parse fails with a
malformed-document error; and `fetchStore` performs exactly one attempt --
its outcome depends only on attempt `0` of the network environment. -/
theorem fetcher_timeout_status_parse_no_retry :
    fetchTimeoutMs = 10000
  ∧ (∀ b : NetBehavior, fetchTimeoutMs < b.elapsedMs →
      attemptFetch b = FetchAttemptResult.failTimeout)
  ∧ (∀ (e status : Nat) (body : JsonBody), e ≤ fetchTimeoutMs →
      ¬(200 ≤ status ∧ status ≤ 299) →
      attemptFetch { elapsedMs := e, result := HttpResult.resp status body }
        = FetchAttemptResult.failHttp status)
  ∧ (∀ e status : Nat, e ≤ fetchTimeoutMs → 200 ≤ status → status ≤ 299 →
      attemptFetch { elapsedMs := e, result := HttpResult.resp status JsonBody.malformed }
        = FetchAttemptResult.failMalformed)
  ∧ (∀ (st : CacheState) (url : String) (prof : Profile) (now : Nat)
        (net net2 : Nat → NetBehavior), net 0 = net2 0 →
      fetchStore st url prof now net = fetchStore st url prof now net2) := by
  refine ⟨rfl, fun b hb => ?_, fun e status body he hs => ?_,
    fun e status he h1 h2 => ?_, fun st url prof now net net2 h => ?_⟩
  · simp [attemptFetch, hb]
  · have hlt : ¬ (fetchTimeoutMs < e) := by omega
    simp [attemptFetch, hlt, hs]
  · have hlt : ¬ (fetchTimeoutMs < e) := by omega
    simp [attemptFetch, hlt, h1, h2]
  · unfold fetchStore
    rw [h]

/-- Witness for C7: each failure mode at a concrete request. -/
theorem fetcher_timeout_status_parse_no_retry_witness :
    attemptFetch { elapsedMs := 10001, result := HttpResult.netErr }
      = FetchAttemptResult.failTimeout
  ∧ attemptFetch { elapsedMs := 5, result := HttpResult.resp 404 (JsonBody.doc []) }
      = FetchAttemptResult.failHttp 404
  ∧ attemptFetch { elapsedMs := 5, result := HttpResult.resp 200 JsonBody.malformed }
      = FetchAttemptResult.failMalformed :=
  ⟨fetcher_timeout_status_parse_no_retry.2.1 _ (by decide),
   fetcher_timeout_status_parse_no_retry.2.2.1 5 404 (JsonBody.doc []) (by decide) (by decide),
   fetcher_timeout_status_parse_no_retry.2.2.2.1 5 200 (by decide) (by decide) (by decide)⟩

/-! ## Claims about the registry writer (C3) -/

/-- C3: `registerDapp` submits the fixed `0.01` fee to the fixed treasury
address with the entry's metadata in the transaction state; under the
node's contract that a send exceeding the available balance fails, it
returns an error whenever the balance is below the fee (and the returned
transaction id otherwise); the error is surfaced to the caller, and the
single RPC attempt is never retried (the result depends only on attempt 0). -/
theorem registerDapp_fee_treasury_and_failure
    (d : DappDraft) (addr : String) (now : Nat) :
    (registrationTxData d addr now).amount = some ("0.01")
  ∧ (registrationTxData d addr now).address = some treasuryAddress
  ∧ (registrationTxData d addr now).state = some (registrationStateOf d addr now)
  ∧ (∀ (balance : ℚ) (txid : String), balance < registrationFeeAmount →
      ∃ msg, registerDapp true (specNodeRpc balance txid) d addr now
        = Except.error msg)
  ∧ (∀ (balance : ℚ) (txid : String), ¬ balance < registrationFeeAmount →
      registerDapp true (specNodeRpc balance txid) d addr now = Except.ok txid)
  ∧ (∀ rpc rpc2 : Nat → String → RpcResult, rpc 0 = rpc2 0 →
      registerDapp true rpc d addr now = registerDapp true rpc2 d addr now) := by
  refine ⟨rfl, rfl, rfl, fun balance txid hlt => ?_, fun balance txid hge => ?_,
    fun rpc rpc2 h => ?_⟩
  · refine ⟨"Transaction failed: Insufficient funds", ?_⟩
    simp [registerDapp, sendCustomTransaction, specNodeRpc, hlt]
  · simp [registerDapp, sendCustomTransaction, specNodeRpc, hge]
  · simp only [registerDapp, sendCustomTransaction]
    rw [h]

/-- A concrete dapp draft for the C3 witness. -/
def w3draft : DappDraft :=
  { uid := "0xAPP", name := "App", version := "1.0.0", description := "demo",
    category := "Utility", ipfs_hash := none }

/-- Witness for C3: with a zero balance the registration surfaces an error. -/
theorem registerDapp_fee_treasury_and_failure_witness :
    ∃ msg, registerDapp true (specNodeRpc 0 "0xTX") w3draft ("MxDEV") 7
      = Except.error msg :=
  (registerDapp_fee_treasury_and_failure w3draft ("MxDEV") 7).2.2.2.1 0 "0xTX"
    (by norm_num [registrationFeeAmount])

/-! ## Claims about the registry scan (C6, C10) -/

/-- A valid registration metadata object for concrete registry evaluations. -/
def c6json (u : String) : DappJson :=
  { type := "minidev_dapp_registration", dapp_uid := u, name := "A",
    version := "1", description := "d", category := "Utility", icon := none,
    ipfs_hash := none, developer_address := "MxD", timestamp := 0 }

/-- A coin whose port-0 state decodes as a valid registration. -/
def c6coin (u : String) : Coin :=
  { coinid := some ("C" ++ u), txpowid := none,
    state := some [{ port := "0", data := some (RegData.parsed (c6json u)) }] }

/-- A coin whose port-0 state data fails to parse as JSON. -/
def c6badCoin : Coin :=
  { coinid := some ("CB"), txpowid := none,
    state := some [{ port := "0", data := some RegData.invalid }] }

/-- C6 counterexample: with `limit = 1` and two records that both decode as
valid, correctly-tagged registrations, the scan returns one entry, not one
entry per valid record -- the returned set is not exactly the valid subset. -/
theorem registry_scan_truncates_at_limit :
    (queryRegisteredDapps true
        (CmdResult.ok (some { coins := some [c6coin ("1"), c6coin ("2")] })) 1).length = 1
  ∧ ([c6coin ("1"), c6coin ("2")].filterMap decodeCoin).length = 2 := by
  constructor <;> decide

/-- C6 (amended): for every record set and every positive limit, the scan
returns exactly the first up-to-`limit` records whose metadata slot decodes
as valid JSON tagged as a dapp registration, in record order; records with
absent or invalid metadata are skipped and never abort the scan of the
remaining records. -/
theorem registry_scan_decode_tolerant_up_to_limit
    (coins : List Coin) (limit : Int) (h : 1 ≤ limit) :
    queryRegisteredDapps true (CmdResult.ok (some { coins := some coins })) limit
      = (coins.filterMap decodeCoin).take limit.toNat := by
  have h0 : (((([] : List RegistryEntry)).length : Int)) < limit := by simp; omega
  simp only [queryRegisteredDapps]
  rw [scanCoins_eq limit coins [] h0]
  simp

/-- Witness for C6 (amended): a malformed record followed by a valid one
yields exactly the valid record's entry. -/
theorem registry_scan_decode_tolerant_up_to_limit_witness :
    queryRegisteredDapps true
        (CmdResult.ok (some { coins := some [c6badCoin, c6coin ("1")] })) 100
      = [{ uid := "1", name := "A", version := "1", description := "d",
           category := "Utility", icon := none, ipfs_hash := none,
           developer_address := "MxD", timestamp := 0, downloads := 0,
           tips := 0, txId := some ("C1") }] :=
  (registry_scan_decode_tolerant_up_to_limit [c6badCoin, c6coin ("1")] 100
    (by decide)).trans (by decide)

/-- A valid registration coin for the C10 counterexample. -/
def c10coin : Coin :=
  { coinid := some ("CZ"), txpowid := none,
    state := some [{ port := "0", data := some (RegData.parsed (c6json ("Z"))) }] }

/-- C10 counterexample: with `limit = 0` and one valid registration coin the
scan still returns one entry, because the `length >= limit` break is checked
only after the push -- so the result is not "at most `limit` entries" for
every limit argument. -/
theorem registry_query_limit_zero_still_returns_entry :
    ¬ (((queryRegisteredDapps true
          (CmdResult.ok (some { coins := some [c10coin] })) 0).length : Int) ≤ 0) := by
  decide

/-- C10 (amended): for every limit at least 1 the scan returns at most
`limit` entries (at most `max limit 1` in general -- a non-positive limit
still admits the one entry pushed before the break); the omitted-argument
default is 100; and the operation never throws -- a not-ready API, a
throwing RPC, or a missing `response`/`coins` field all yield `[]`. -/
theorem registry_query_limit_bound_and_total (coinsCmd : CmdResult) (limit : Int) :
    (1 ≤ limit → ((queryRegisteredDapps true coinsCmd limit).length : Int) ≤ limit)
  ∧ (queryRegisteredDapps true coinsCmd limit).length ≤ max limit.toNat 1
  ∧ (∀ (rpc2 : CmdResult) (l2 : Int), queryRegisteredDapps false rpc2 l2 = [])
  ∧ (∀ (m : String) (l2 : Int), queryRegisteredDapps true (CmdResult.err m) l2 = [])
  ∧ (∀ l2 : Int, queryRegisteredDapps true (CmdResult.ok none) l2 = [])
  ∧ (∀ l2 : Int,
      queryRegisteredDapps true (CmdResult.ok (some { coins := none })) l2 = [])
  ∧ (∀ (r : Bool) (c : CmdResult),
      queryRegisteredDappsDefault r c = queryRegisteredDapps r c 100) := by
  refine ⟨fun h1 => ?_, ?_, fun rpc2 l2 => rfl, fun m l2 => rfl, fun l2 => rfl,
    fun l2 => rfl, fun r c => rfl⟩
  · match coinsCmd with
    | CmdResult.err m => simp [queryRegisteredDapps]; omega
    | CmdResult.ok none => simp [queryRegisteredDapps]; omega
    | CmdResult.ok (some resp) =>
      match hknd : resp.coins with
      | none => simp [queryRegisteredDapps, hknd]; omega
      | some coins =>
        have hq : queryRegisteredDapps true (CmdResult.ok (some resp)) limit
            = scanCoins limit coins [] := by
          simp [queryRegisteredDapps, hknd]
        rw [hq, scanCoins_eq limit coins [] (by simp; omega)]
        have ht := List.length_take_le limit.toNat (coins.filterMap decodeCoin)
        have h2 : ((limit.toNat : Int)) = limit := Int.toNat_of_nonneg (by omega)
        simp only [List.nil_append, List.length_nil, Nat.cast_zero, Int.sub_zero]
        omega
  · match coinsCmd with
    | CmdResult.err m => simp [queryRegisteredDapps]
    | CmdResult.ok none => simp [queryRegisteredDapps]
    | CmdResult.ok (some resp) =>
      match hknd : resp.coins with
      | none => simp [queryRegisteredDapps, hknd]
      | some coins =>
        have hq : queryRegisteredDapps true (CmdResult.ok (some resp)) limit
            = scanCoins limit coins [] := by
          simp [queryRegisteredDapps, hknd]
        rw [hq, Nat.max_comm]
        have := scanCoins_length_le limit coins []
        simpa using this

/-- Witness for C10 (amended): the bound at a concrete positive limit. -/
theorem registry_query_limit_bound_and_total_witness :
    ((queryRegisteredDapps true (CmdResult.ok none) 5).length : Int) ≤ 5 :=
  (registry_query_limit_bound_and_total (CmdResult.ok none) 5).1 (by decide)

/-! ## Claims about live-channel counter events (C5) -/

/-- A listed dapp present in the view model for the C5 counterexample. -/
def c5dapp : VMDapp :=
  { uid := "0xD1", developer_address := "MxDev", downloads := 5, tips := 0 }

/-- The view model holding that dapp. -/
def c5state : AppState := { dapps := [c5dapp] }

/-- A received download broadcast naming that dapp. -/
def c5msg : MaximaMessage :=
  { type := "minidev_download", dapp := none,
    download := some { dapp_uid := "0xD1", downloader_address := "MxU" },
    tip := none }

/-- C5 counterexample: a `minidev_download` broadcast naming a listing that
is present in the view model leaves the view model unchanged -- the handler
dispatches only `minidev_new_dapp` and `minidev_profile_update`, so the
matching entry's `downloads` counter stays at 5 instead of becoming 6. -/
theorem download_event_does_not_increment_counter :
    handleMaximaMessage c5state c5msg = c5state
  ∧ c5msg.type = "minidev_download"
  ∧ c5msg.download.map (fun p => p.dapp_uid) = some ("0xD1")
  ∧ c5state.dapps.map (fun d => (d.uid, d.downloads)) = [("0xD1", 5)]
  ∧ (handleMaximaMessage c5state c5msg).dapps.map (fun d => d.downloads) ≠ [6] := by
  refine ⟨rfl, rfl, rfl, rfl, by decide⟩

/-- C5 (amended): download and tip broadcast events received from the live
channel are ignored by the message handler (they fall to the unknown-type
default and leave the view model unchanged); the `downloads` and `tips`
counters are incremented only by the local client's own download and tip
actions, which bump the first matching entry by one download, respectively
by the tipped amount. -/
theorem live_counter_events_ignored_increment_local_only :
    (∀ (st : AppState) (m : MaximaMessage),
        m.type = "minidev_download" ∨ m.type = "minidev_tip" →
        handleMaximaMessage st m = st)
  ∧ (∀ (l : List VMDapp) (uid : String) (d : VMDapp),
        l.find? (fun x => x.uid == uid) = some d →
        ∃ pre post, l = pre ++ d :: post ∧
          (applyDownloadSuccess { dapps := l } uid).dapps
            = pre ++ ({ d with downloads := d.downloads + 1 }) :: post)
  ∧ (∀ (l : List VMDapp) (addr : String) (amount : ℚ) (d : VMDapp),
        l.find? (fun x => x.developer_address == addr) = some d →
        ∃ pre post, l = pre ++ d :: post ∧
          (applySendTip { dapps := l } addr amount).dapps
            = pre ++ ({ d with tips := d.tips + amount }) :: post) := by
  refine ⟨fun st m h => ?_, fun l uid d h => ?_, fun l addr amount d h => ?_⟩
  · rcases h with h | h <;> simp [handleMaximaMessage, h]
  · obtain ⟨pre, post, hl, hu⟩ :=
      updateFirst_of_find (fun x => x.uid == uid)
        (fun d => { d with downloads := d.downloads + 1 }) l d h
    exact ⟨pre, post, hl, hu⟩
  · obtain ⟨pre, post, hl, hu⟩ :=
      updateFirst_of_find (fun x => x.developer_address == addr)
        (fun d => { d with tips := d.tips + amount }) l d h
    exact ⟨pre, post, hl, hu⟩

/-- An empty view model and a tip broadcast for the C5 witness. -/
def w5state : AppState := { dapps := [] }

def w5msg : MaximaMessage :=
  { type := "minidev_tip", dapp := none, download := none,
    tip := some { amount := 1, recipient_address := "MxDev", sender_address := "MxU" } }

/-- Witness for C5 (amended): a received tip broadcast leaves the view model
unchanged, and a local download action on a one-entry model bumps that
entry's counter. -/
theorem live_counter_events_ignored_increment_local_only_witness :
    handleMaximaMessage w5state w5msg = w5state
  ∧ ∃ pre post, [c5dapp] = pre ++ c5dapp :: post ∧
      (applyDownloadSuccess { dapps := [c5dapp] } "0xD1").dapps
        = pre ++ ({ c5dapp with downloads := c5dapp.downloads + 1 }) :: post :=
  ⟨live_counter_events_ignored_increment_local_only.1 w5state w5msg (Or.inr rfl),
   live_counter_events_ignored_increment_local_only.2.1 [c5dapp] "0xD1" c5dapp (by decide)⟩
